import Mathlib

/-!
Verification of the coadd-assembly core of `pipe_tasks`
(`assembleCoadd.py`, `dcrAssembleCoadd.py`) against its specification.

Pixel values are embedded as exact rationals.  IEEE floating-point special
values are modelled by the type `PipeTasks.PFloat`, which carries a single
`nan` token for NaN together with the two infinities; comparisons involving
`nan` are false, as in numpy.  Rounding is not modelled: the claims settled
here concern control flow, clipping case analysis and exact algebraic
identities, none of which depend on rounding.
-/

namespace PipeTasks

/-- Surrogate for a numpy floating-point value: NaN, the two infinities,
or a finite value represented exactly as a rational. -/
inductive PFloat where
  | nan : PFloat
  | pinf : PFloat
  | ninf : PFloat
  | fin : ℚ → PFloat
deriving DecidableEq, Repr

/-- `numpy.isfinite`: true exactly on finite values. -/
def PFloat.isFinite : PFloat → Bool
  | .fin _ => true
  | _ => false

/-- IEEE addition on the surrogate (any operation with NaN gives NaN,
opposite infinities give NaN). -/
def PFloat.add : PFloat → PFloat → PFloat
  | .nan, _ => .nan
  | _, .nan => .nan
  | .pinf, .ninf => .nan
  | .ninf, .pinf => .nan
  | .pinf, _ => .pinf
  | _, .pinf => .pinf
  | .ninf, _ => .ninf
  | _, .ninf => .ninf
  | .fin a, .fin b => .fin (a + b)

/-- `numpy.abs` on the surrogate. -/
def PFloat.abs : PFloat → PFloat
  | .nan => .nan
  | .pinf => .pinf
  | .ninf => .pinf
  | .fin a => .fin |a|

/-- Multiplication by a finite scalar `c` (used for the clamp factors,
which are finite configuration values). -/
def PFloat.scale (c : ℚ) : PFloat → PFloat
  | .nan => .nan
  | .pinf => if 0 < c then .pinf else if c < 0 then .ninf else .nan
  | .ninf => if 0 < c then .ninf else if c < 0 then .pinf else .nan
  | .fin a => .fin (c * a)

/-- IEEE `<` on the surrogate: any comparison with NaN is false. -/
def PFloat.lt : PFloat → PFloat → Bool
  | .nan, _ => false
  | _, .nan => false
  | .ninf, .ninf => false
  | .ninf, _ => true
  | _, .ninf => false
  | .pinf, .pinf => false
  | _, .pinf => true
  | .pinf, _ => false
  | .fin a, .fin b => decide (a < b)

/-- IEEE `>` on the surrogate. -/
def PFloat.gt (a b : PFloat) : Bool := PFloat.lt b a

/-- Strict positivity of a pixel value (`+inf` counts as positive). -/
def PFloat.isStrictPos : PFloat → Bool
  | .pinf => true
  | .fin q => decide (0 < q)
  | _ => false

/-!
## C9: variance repair after interpolation

Embeds `AssembleCoaddTask.run` (assembleCoadd.py lines 363-368):
`varArray[:] = numpy.where(varArray > 0, varArray, numpy.inf)`.
-/

/-- One pixel of the variance repair: keep values that compare strictly
greater than zero (NaN compares false), replace everything else by `+inf`. -/
def fixVariancePixel (v : PFloat) : PFloat :=
  if PFloat.lt (.fin 0) v then v else .pinf

/-- The whole-plane variance repair applied after interpolation. -/
def fixVariance (vs : List PFloat) : List PFloat := vs.map fixVariancePixel

/-!
## C10: convergence metric with zero total weight

Embeds `DcrAssembleCoaddTask.calculateConvergence` (dcrAssembleCoadd.py
lines 503-518).  The per-epoch quantities are abstracted as a list of
pairs `(expWeight, singleMetric)`; the accumulation loop and the final
`if weight == 0: return 1.` are embedded directly.
-/

/-- Weighted convergence metric: accumulate `singleMetric*expWeight` and
`expWeight` over the epochs, returning the constant 1 when the total
weight is zero instead of dividing. -/
def calculateConvergence (pairs : List (ℚ × ℚ)) : ℚ :=
  let metric := (pairs.map (fun p => p.2 * p.1)).sum
  let weight := (pairs.map Prod.fst).sum
  if weight = 0 then 1 else metric / weight

/-!
## C4: cross-sub-band regularization conserves flux

Embeds `DcrAssembleCoaddTask.regularizeModel` (dcrAssembleCoadd.py lines
450-466) at a single pixel.  The operation is pixelwise: `templateImage`
is the per-pixel mean across the sub-band models, and `noiseLevel` is a
scalar (`regularizeSigma` times the background scatter) passed in as a
parameter.
-/

/-- One sub-band model value at one pixel, clipped against the cross-band
mean `t`: the high clip (above `t*c + noise`) and then the low clip
(below `t/c - noise`), each accumulating the clipped-away flux.
Returns the new value together with the flux moved into the excess. -/
def regClampPixelStep (c noise t v : ℚ) : ℚ × ℚ :=
  let s1 : ℚ × ℚ := if v > t * c + noise then (t * c, v - t * c) else (v, 0)
  let s2 : ℚ × ℚ :=
    if s1.1 < t / c - noise then (t / c, s1.1 - t / c) else (s1.1, 0)
  (s2.1, s1.2 + s2.2)

/-- The full regularization at one pixel: clip every sub-band model against
the cross-band mean, accumulate the clipped-away flux, divide it by the
number of sub-bands and add it back to every sub-band. -/
def regularizeModelPixel (c noise : ℚ) (vals : List ℚ) : List ℚ :=
  let t := vals.sum / vals.length
  let stepped := vals.map (regClampPixelStep c noise t)
  let excess := (stepped.map Prod.snd).sum
  stepped.map (fun p => p.1 + excess / vals.length)

/-- Each clamp step only moves flux between the model value and the excess
accumulator: their sum is the original value. -/
theorem regClampPixelStep_sum (c noise t v : ℚ) :
    (regClampPixelStep c noise t v).1 + (regClampPixelStep c noise t v).2 = v := by
  unfold regClampPixelStep
  dsimp only
  split <;> split <;> ring

theorem sum_map_fst_add_snd (f : ℚ → ℚ × ℚ) (h : ∀ v, (f v).1 + (f v).2 = v)
    (l : List ℚ) : ((l.map f).map Prod.fst).sum + ((l.map f).map Prod.snd).sum = l.sum := by
  induction l with
  | nil => simp
  | cons a t ih =>
    simp only [List.map_cons, List.sum_cons]
    calc (f a).1 + ((t.map f).map Prod.fst).sum + ((f a).2 + ((t.map f).map Prod.snd).sum)
        = ((f a).1 + (f a).2) + (((t.map f).map Prod.fst).sum + ((t.map f).map Prod.snd).sum) := by
          ring
      _ = a + t.sum := by rw [h a, ih]

theorem sum_map_add_const (l : List (ℚ × ℚ)) (k : ℚ) :
    (l.map (fun p => p.1 + k)).sum = (l.map Prod.fst).sum + l.length * k := by
  induction l with
  | nil => simp
  | cons a t ih =>
    simp only [List.map_cons, List.sum_cons, List.length_cons, ih]
    push_cast
    ring

/-- C4: DCR cross-sub-band regularization conserves total flux at every
pixel: the flux clipped away from sub-band models beyond the
`clampFrequency` bounds (outside the `regularizeSigma` noise floor) is
accumulated, divided by the number of sub-bands and added back to every
sub-band, so the cross-sub-band sum of the models is unchanged and the
per-pixel redistribution deltas sum to exactly zero. -/
theorem regularizeModel_flux_conserved (c noise : ℚ) (vals : List ℚ) :
    (regularizeModelPixel c noise vals).sum = vals.sum := by
  unfold regularizeModelPixel
  dsimp only
  rcases eq_or_ne vals [] with h | h
  · subst h; simp
  · have hl : vals.length ≠ 0 := by simpa using h
    have hn : (vals.length : ℚ) ≠ 0 := Nat.cast_ne_zero.mpr hl
    rw [sum_map_add_const]
    rw [List.length_map]
    rw [mul_div_cancel₀ _ hn]
    exact sum_map_fst_add_snd _ (regClampPixelStep_sum c noise _) vals

/-- C9: after the interpolation step of `AssembleCoaddTask.run` (with
`config.doInterp` enabled) every pixel of the output variance plane is
strictly positive: values comparing strictly greater than zero are kept,
and every other value (non-positive, NaN or `-inf`) is replaced by
`+inf`, so the output variance is never negative post-interpolation. -/
theorem variance_positive_after_interp :
    (∀ vs : List PFloat, (fixVariance vs).all PFloat.isStrictPos = true) ∧
    (∀ q : ℚ, 0 < q → fixVariancePixel (.fin q) = .fin q) ∧
    (∀ q : ℚ, q ≤ 0 → fixVariancePixel (.fin q) = .pinf) ∧
    fixVariancePixel .nan = .pinf ∧ fixVariancePixel .ninf = .pinf ∧
    fixVariancePixel .pinf = .pinf := by
  refine ⟨?_, ?_, ?_, rfl, rfl, rfl⟩
  · intro vs
    rw [List.all_eq_true]
    intro v hv
    rcases List.mem_map.mp hv with ⟨w, _, hw⟩
    subst hw
    unfold fixVariancePixel
    cases w with
    | nan => rfl
    | pinf => rfl
    | ninf => rfl
    | fin q =>
        by_cases hq : 0 < q
        · simp [PFloat.lt, PFloat.isStrictPos, hq]
        · simp [PFloat.lt, PFloat.isStrictPos, hq]
  · intro q hq
    simp [fixVariancePixel, PFloat.lt, hq]
  · intro q hq
    simp [fixVariancePixel, PFloat.lt, not_lt.mpr hq]

/-- Witness for C9 at concrete pixels: a negative and a NaN variance are
both replaced by `+inf`, and a positive one is kept. -/
theorem variance_positive_after_interp_witness :
    fixVariancePixel (.fin (-3)) = .pinf ∧ fixVariancePixel (.fin 2) = .fin 2 := by
  refine ⟨variance_positive_after_interp.2.2.1 (-3) (by norm_num),
          variance_positive_after_interp.2.1 2 (by norm_num)⟩

/-- C10: whenever the accumulated total of per-epoch weights is zero (for
example, an empty list of input epoch references),
`DcrAssembleCoaddTask.calculateConvergence` returns the constant 1 instead
of performing the weighted division. -/
theorem calculateConvergence_zero_weight (pairs : List (ℚ × ℚ))
    (h : (pairs.map Prod.fst).sum = 0) : calculateConvergence pairs = 1 := by
  unfold calculateConvergence
  simp [h]

/-- Witness for C10: with no input epochs the metric is the constant 1. -/
theorem calculateConvergence_zero_weight_witness :
    calculateConvergence [] = 1 :=
  calculateConvergence_zero_weight [] (by simp)

/-!
## C5: termination of the DCR solver iteration loop

Embeds the `while` loop of `DcrAssembleCoaddTask.assemble`
(dcrAssembleCoadd.py lines 233-266) for one sub-region.  The effect of
`dcrAssembleSubregion`/`calculateConvergence` on the models is abstracted
into `metrics : ℕ → Option ℚ`, the convergence metric computed by
iteration number; `none` models an iteration whose body raised an
exception (caught and logged by the `except` clause, leaving the metric
and convergence check unchanged).  The loop guard, the update of
`convergenceCheck`, the `modelIter > maxNumIter` break (logged as a
warning, not an error) and the increment are embedded directly.
-/

/-- Loop configuration: `convergenceThreshold`, `minNumIter`, `maxNumIter`
and the `useConvergence` switch. -/
structure DcrLoopConfig where
  convergenceThreshold : ℚ
  minNumIter : ℕ
  maxNumIter : ℕ
  useConvergence : Bool

/-- Final state of the iteration loop: the iteration counter at exit, the
last convergence check and metric, and whether the loop exited through the
maximum-iteration break (`hitMax = true`, logged as a warning) rather than
through the convergence guard. -/
structure DcrLoopState where
  modelIter : ℕ
  check : ℚ
  metric : ℚ
  hitMax : Bool
deriving DecidableEq, Repr

/-- The solver iteration loop for one sub-region.  `iter` is `modelIter`,
`check` is `convergenceCheck` and `prev` the last convergence metric.  The
body runs while `check > threshold` or `iter < minNumIter`; a successful
iteration with `useConvergence` updates the check to the relative
improvement `(prev - m)/m`; the loop breaks (returning normally) once
`iter > maxNumIter`. -/
def dcrIterLoop (cfg : DcrLoopConfig) (metrics : ℕ → Option ℚ)
    (iter : ℕ) (check prev : ℚ) : DcrLoopState :=
  if check > cfg.convergenceThreshold ∨ iter < cfg.minNumIter then
    let next : ℚ × ℚ :=
      if cfg.useConvergence then
        match metrics iter with
        | some m => ((prev - m) / m, m)
        | none => (check, prev)
      else (check, prev)
    if iter > cfg.maxNumIter then ⟨iter, next.1, next.2, true⟩
    else dcrIterLoop cfg metrics (iter + 1) next.1 next.2
  else ⟨iter, check, prev, false⟩
termination_by cfg.maxNumIter + 1 - iter
decreasing_by
  rename_i _h1 h2
  exact Nat.sub_lt_sub_left (by omega) (by omega)

theorem dcrIterLoop_invariant (cfg : DcrLoopConfig) (metrics : ℕ → Option ℚ) :
    ∀ fuel iter check prev, cfg.maxNumIter + 1 - iter ≤ fuel →
      iter ≤ cfg.maxNumIter + 1 →
      (dcrIterLoop cfg metrics iter check prev).modelIter ≤ cfg.maxNumIter + 1 ∧
      (((dcrIterLoop cfg metrics iter check prev).hitMax = false ∧
        (dcrIterLoop cfg metrics iter check prev).check ≤ cfg.convergenceThreshold ∧
        cfg.minNumIter ≤ (dcrIterLoop cfg metrics iter check prev).modelIter) ∨
       ((dcrIterLoop cfg metrics iter check prev).hitMax = true ∧
        (dcrIterLoop cfg metrics iter check prev).modelIter = cfg.maxNumIter + 1)) := by
  intro fuel
  induction fuel with
  | zero =>
    intro iter check prev hfuel hle
    have hiter : iter = cfg.maxNumIter + 1 := by omega
    rw [dcrIterLoop]
    by_cases hg : check > cfg.convergenceThreshold ∨ iter < cfg.minNumIter
    · have hbr : iter > cfg.maxNumIter := by omega
      simp only [hg, if_true, hbr]
      simp [hiter]
    · simp only [hg, if_false]
      constructor
      · exact hle
      · left
        push_neg at hg
        simp [hg.1, hg.2]
  | succ n ih =>
    intro iter check prev hfuel hle
    rw [dcrIterLoop]
    by_cases hg : check > cfg.convergenceThreshold ∨ iter < cfg.minNumIter
    · simp only [hg, if_true]
      by_cases hbr : iter > cfg.maxNumIter
      · have hiter : iter = cfg.maxNumIter + 1 := by omega
        simp [hbr, hiter]
      · simp only [hbr, if_false]
        exact ih (iter + 1) _ _ (by omega) (by omega)
    · simp only [hg, if_false]
      constructor
      · exact hle
      · left
        push_neg at hg
        simp [hg.1, hg.2]

/-- C5: for every sub-region the DCR solver iteration loop always
terminates (the exit iteration counter is bounded by `maxNumIter + 1`),
and it exits either through the loop guard -- exactly when the relative
improvement of the convergence metric no longer exceeds
`convergenceThreshold` and at least `minNumIter` iterations have run -- or
through the maximum-iteration break, which returns normally (a logged
warning, not an error that would abort the assembly). -/
theorem dcrIterLoop_terminates (cfg : DcrLoopConfig) (metrics : ℕ → Option ℚ)
    (initialMetric : ℚ) :
    (dcrIterLoop cfg metrics 0 1 initialMetric).modelIter ≤ cfg.maxNumIter + 1 ∧
    (((dcrIterLoop cfg metrics 0 1 initialMetric).hitMax = false ∧
      (dcrIterLoop cfg metrics 0 1 initialMetric).check ≤ cfg.convergenceThreshold ∧
      cfg.minNumIter ≤ (dcrIterLoop cfg metrics 0 1 initialMetric).modelIter) ∨
     ((dcrIterLoop cfg metrics 0 1 initialMetric).hitMax = true ∧
      (dcrIterLoop cfg metrics 0 1 initialMetric).modelIter = cfg.maxNumIter + 1)) :=
  dcrIterLoop_invariant cfg metrics (cfg.maxNumIter + 1) 0 1 initialMetric
    (by omega) (by omega)

/-!
## C6: the mask map passed to the stacker

Embeds the mask-map construction of `AssembleCoaddTask.assembleSubregion`
(assembleCoadd.py lines 626-641).  Mask planes are bitmasks over ℕ; the
Python expression `statsCtrl.getAndMask() & (~noData) & (~edge) &
(~clipped)` clears the `NO_DATA`, `EDGE` and `CLIPPED` bits from the
bad-pixel mask, which on ℕ is the iterated bitwise difference `ldiff`.
-/

/-- The `toReject` pattern: every bit of the configured bad-pixel mask
other than the `NO_DATA`, `EDGE` and `CLIPPED` bits. -/
def toRejectPattern (andMask noData edge clipped : ℕ) : ℕ :=
  ((andMask.ldiff noData).ldiff edge).ldiff clipped

/-- The mask map handed to `afwMath.statisticsStack`: three substitution
rules, in order `(toReject, REJECTED)`, `(EDGE, SENSOR_EDGE)`,
`(CLIPPED, CLIPPED)`. -/
def mkMaskMap (andMask noData edge clipped rejected sensorEdge : ℕ) :
    List (ℕ × ℕ) :=
  [(toRejectPattern andMask noData edge clipped, rejected),
   (edge, sensorEdge),
   (clipped, clipped)]

/-- Modelled from the spec: the mask-map substitution semantics of the
external stacker `afwMath.statisticsStack` (not part of this repository).
A rejected input pixel whose mask intersects a rule's input bit pattern
contributes the rule's output bits to the output mask. -/
def substituteMask (maskMap : List (ℕ × ℕ)) (m : ℕ) : ℕ :=
  (maskMap.map (fun r => if m &&& r.1 ≠ 0 then r.2 else 0)).foldr (· ||| ·) 0

/-- Modelled from the spec: the output pixel mask produced by the external
stacker is the OR over the surviving epochs of their substituted masks. -/
def stackOutputMask (maskMap : List (ℕ × ℕ)) (epochMasks : List ℕ) : ℕ :=
  (epochMasks.map (substituteMask maskMap)).foldr (· ||| ·) 0

theorem nat_ne_zero_iff_exists_testBit (n : ℕ) :
    n ≠ 0 ↔ ∃ i, n.testBit i = true := by
  constructor
  · intro h
    by_contra hc
    push_neg at hc
    refine h (Nat.eq_of_testBit_eq fun i => ?_)
    rw [Nat.zero_testBit]
    exact Bool.eq_false_iff.mpr (hc i)
  · rintro ⟨i, hi⟩ h0
    subst h0
    rw [Nat.zero_testBit] at hi
    exact Bool.false_ne_true hi

/-- C6: the mask map built by `assembleSubregion` consists of exactly the
three substitution rules of the claim: a bit belongs to the first rule's
input pattern exactly when it is a bad-pixel-mask bit that is none of the
`NO_DATA`, `EDGE` and `CLIPPED` bits (and it maps to `REJECTED`); the
second rule maps `EDGE` to `SENSOR_EDGE`; the third maps `CLIPPED` to
itself; and under the stacker's substitution semantics the output pixel
mask is the OR of the surviving epochs' substituted masks, where a mask
contributes `REJECTED` exactly when it holds a bad bit other than
`EDGE`/`NO_DATA`/`CLIPPED`, `SENSOR_EDGE` exactly when it holds `EDGE`,
and `CLIPPED` exactly when it holds `CLIPPED`. -/
theorem assembleSubregion_maskMap_rules
    (andMask noData edge clipped rejected sensorEdge : ℕ) :
    (mkMaskMap andMask noData edge clipped rejected sensorEdge).length = 3 ∧
    (∀ b : ℕ, (toRejectPattern andMask noData edge clipped).testBit b =
      (andMask.testBit b && !noData.testBit b && !edge.testBit b &&
        !clipped.testBit b)) ∧
    (mkMaskMap andMask noData edge clipped rejected sensorEdge =
      [(toRejectPattern andMask noData edge clipped, rejected),
       (edge, sensorEdge), (clipped, clipped)]) ∧
    (∀ m : ℕ,
      substituteMask (mkMaskMap andMask noData edge clipped rejected sensorEdge) m =
        (if m &&& toRejectPattern andMask noData edge clipped ≠ 0 then rejected
          else 0) |||
        ((if m &&& edge ≠ 0 then sensorEdge else 0) |||
         ((if m &&& clipped ≠ 0 then clipped else 0) ||| 0))) ∧
    (∀ m : ℕ, m &&& toRejectPattern andMask noData edge clipped ≠ 0 ↔
      (∃ b, m.testBit b ∧ andMask.testBit b ∧ ¬noData.testBit b ∧
        ¬edge.testBit b ∧ ¬clipped.testBit b)) ∧
    (∀ epochMasks : List ℕ,
      stackOutputMask (mkMaskMap andMask noData edge clipped rejected sensorEdge)
          epochMasks =
        (epochMasks.map
          (substituteMask
            (mkMaskMap andMask noData edge clipped rejected sensorEdge))).foldr
          (· ||| ·) 0) := by
  refine ⟨rfl, ?_, rfl, fun _ => rfl, ?_, fun _ => rfl⟩
  · intro b
    unfold toRejectPattern
    rw [Nat.testBit_ldiff, Nat.testBit_ldiff, Nat.testBit_ldiff]
  · intro m
    rw [nat_ne_zero_iff_exists_testBit]
    constructor
    · rintro ⟨i, hi⟩
      rw [Nat.testBit_land] at hi
      unfold toRejectPattern at hi
      rw [Nat.testBit_ldiff, Nat.testBit_ldiff, Nat.testBit_ldiff] at hi
      refine ⟨i, ?_, ?_, ?_, ?_, ?_⟩ <;> revert hi <;>
        cases m.testBit i <;> cases andMask.testBit i <;>
        cases noData.testBit i <;> cases edge.testBit i <;>
        cases clipped.testBit i <;> simp
    · rintro ⟨i, h1, h2, h3, h4, h5⟩
      refine ⟨i, ?_⟩
      rw [Nat.testBit_land]
      unfold toRejectPattern
      rw [Nat.testBit_ldiff, Nat.testBit_ldiff, Nat.testBit_ldiff]
      simp [h1, h2, Bool.eq_false_iff.mpr h3, Bool.eq_false_iff.mpr h4,
        Bool.eq_false_iff.mpr h5]

/-!
## C7: per-tile failures do not abort the assembly

Embeds the tile loop of `AssembleCoaddTask.assemble` (assembleCoadd.py
lines 537-549): every call of `assembleSubregion` is wrapped in
`try/except`, a raised exception is logged and the loop moves on, leaving
the failed tile's sub-region of the coadd unwritten.  Stacking one tile is
abstracted as `stack : ℕ → Except ε β` (`.error` = the stacker raised);
the coadd is a partial map from tile index to stacked result, initially
everywhere unwritten.
-/

/-- A pixel region of the final coadd: either stacked data, or `NO_DATA`
where its tile was never written. -/
inductive TileState (β : Type) where
  | noData : TileState β
  | stacked : β → TileState β
deriving DecidableEq, Repr

/-- The tile loop: process tiles in order; a tile whose stacking raises is
caught (logged) and skipped, the others are written into the coadd. -/
def assembleTileLoop {ε β : Type} (stack : ℕ → Except ε β) :
    List ℕ → (ℕ → Option β) → (ℕ → Option β)
  | [], coadd => coadd
  | t :: rest, coadd =>
    match stack t with
    | .ok b => assembleTileLoop stack rest (fun i => if i = t then some b else coadd i)
    | .error _ => assembleTileLoop stack rest coadd

/-- Modelled from the spec: the external `coaddUtils.setCoaddEdgeBits`
post-processing marks every pixel that received no unmasked inputs (in
particular, every pixel of an un-stacked tile) as `NO_DATA`. -/
def finalizeCoadd {β : Type} (coadd : ℕ → Option β) (i : ℕ) : TileState β :=
  match coadd i with
  | some b => .stacked b
  | none => .noData

/-- The whole assembly over a list of tiles, starting from an unwritten
coadd; always returns a coadd. -/
def assembleCoadd {ε β : Type} (stack : ℕ → Except ε β) (tiles : List ℕ) :
    ℕ → TileState β :=
  finalizeCoadd (assembleTileLoop stack tiles (fun _ => none))

theorem assembleTileLoop_char {ε β : Type} (stack : ℕ → Except ε β) :
    ∀ (tiles : List ℕ) (coadd : ℕ → Option β) (i : ℕ),
      assembleTileLoop stack tiles coadd i =
        if i ∈ tiles then
          match stack i with
          | .ok b => some b
          | .error _ => coadd i
        else coadd i := by
  intro tiles
  induction tiles with
  | nil => intro coadd i; simp [assembleTileLoop]
  | cons t rest ih =>
    intro coadd i
    unfold assembleTileLoop
    rcases hs : stack t with e | b
    · dsimp only
      rw [ih]
      by_cases hmem : i ∈ rest
      · simp [hmem, List.mem_cons]
      · by_cases hit : i = t
        · subst hit
          simp [hmem, hs, List.mem_cons]
        · simp [hmem, hit, List.mem_cons]
    · dsimp only
      rw [ih]
      by_cases hmem : i ∈ rest
      · by_cases hit : i = t
        · subst hit
          simp [hmem, hs, List.mem_cons]
        · simp [hmem, hit, List.mem_cons]
      · by_cases hit : i = t
        · subst hit
          simp [hmem, hs, List.mem_cons]
        · simp [hmem, hit, List.mem_cons]

/-- C7: a tile whose stacking raises an exception is caught and left
un-stacked -- its region of the coadd ends as `NO_DATA` after the edge-bit
post-processing -- while every other tile is still processed: any tile
whose stacking succeeds ends up stacked in the returned coadd regardless
of failures elsewhere, and the assembly always completes and returns a
coadd (the assembly function is total). -/
theorem assemble_tile_failure_tolerant {ε β : Type} (stack : ℕ → Except ε β)
    (tiles : List ℕ) (t : ℕ) (hmem : t ∈ tiles) :
    (∀ e, stack t = .error e → assembleCoadd stack tiles t = .noData) ∧
    (∀ b, stack t = .ok b → assembleCoadd stack tiles t = .stacked b) := by
  constructor
  · intro e he
    unfold assembleCoadd finalizeCoadd
    rw [assembleTileLoop_char]
    simp [hmem, he]
  · intro b hb
    unfold assembleCoadd finalizeCoadd
    rw [assembleTileLoop_char]
    simp [hmem, hb]

/-- Witness for C7 at a concrete input: with three tiles where the middle
one raises, the failed tile is `NO_DATA` and its successor is still
stacked. -/
theorem assemble_tile_failure_tolerant_witness :
    assembleCoadd (fun i => if i = 1 then Except.error "stack failure"
      else Except.ok i) [0, 1, 2] 1 = .noData ∧
    assembleCoadd (fun i => if i = 1 then Except.error "stack failure"
      else Except.ok i) [0, 1, 2] 2 = .stacked 2 := by
  constructor
  · exact (assemble_tile_failure_tolerant _ [0, 1, 2] 1 (by decide)).1
      "stack failure" rfl
  · exact (assemble_tile_failure_tolerant _ [0, 1, 2] 2 (by decide)).2 2 rfl

/-!
## C8: the sub-bounding-box iterator

Embeds `AssembleCoaddTask._subBBoxIter` (assembleCoadd.py lines 809-834).
`afwGeom.Box2I` is embedded as a minimum corner plus dimensions; a box is
empty when either dimension is non-positive.  The Python generator raises
on an empty input box or a non-positive subregion size, then yields
`Box2I(bbox.getMin() + (colShift, rowShift), subregionSize).clip(bbox)`
for `rowShift in range(0, height, subHeight)` and `colShift in
range(0, width, subWidth)`, raising if a clipped sub-box is empty.  The
generator is embedded as an `Except`-valued function; a mid-iteration
raise yields the error.
-/

/-- An integer box: minimum corner and dimensions. -/
structure Box2I where
  x0 : ℤ
  y0 : ℤ
  w : ℤ
  h : ℤ
deriving DecidableEq, Repr

/-- `Box2I.isEmpty`: a box with a non-positive dimension is empty. -/
def Box2I.isEmptyB (b : Box2I) : Bool :=
  decide (b.w ≤ 0) || decide (b.h ≤ 0)

/-- Pixel membership in a box. -/
def Box2I.mem (p : ℤ × ℤ) (b : Box2I) : Prop :=
  b.x0 ≤ p.1 ∧ p.1 < b.x0 + b.w ∧ b.y0 ≤ p.2 ∧ p.2 < b.y0 + b.h

/-- `Box2I.clip`: intersection of two boxes. -/
def Box2I.clip (a b : Box2I) : Box2I :=
  ⟨max a.x0 b.x0, max a.y0 b.y0,
   min (a.x0 + a.w) (b.x0 + b.w) - max a.x0 b.x0,
   min (a.y0 + a.h) (b.y0 + b.h) - max a.y0 b.y0⟩

theorem Box2I.mem_clip (a b : Box2I) (p : ℤ × ℤ) :
    Box2I.mem p (Box2I.clip a b) ↔ Box2I.mem p a ∧ Box2I.mem p b := by
  unfold Box2I.mem Box2I.clip
  dsimp only
  omega

/-- Python `range(0, stop, step)` for `step ≥ 1`: the multiples of `step`
below `stop`. -/
def pyRangeStep (stop step : ℕ) : List ℕ :=
  (List.range ((stop + step - 1) / step)).map (· * step)

/-- The yield loop of the generator: for each `(rowShift, colShift)` pair
in raster order, clip the tile-sized box at the shifted corner to `bbox`;
an empty clipped box raises. -/
def yieldSubBoxes (bbox : Box2I) (sw sh : ℤ) :
    List (ℕ × ℕ) → Except String (List Box2I)
  | [] => .ok []
  | rc :: rest =>
    let sub := Box2I.clip ⟨bbox.x0 + rc.2, bbox.y0 + rc.1, sw, sh⟩ bbox
    if sub.isEmptyB then .error "Bug: empty bbox"
    else
      match yieldSubBoxes bbox sw sh rest with
      | .ok l => .ok (sub :: l)
      | .error e => .error e

/-- `_subBBoxIter`: validate the inputs, then yield the clipped sub-boxes
in raster order. -/
def subBBoxList (bbox : Box2I) (sw sh : ℤ) : Except String (List Box2I) :=
  if bbox.isEmptyB then .error "bbox is empty"
  else if sw < 1 ∨ sh < 1 then .error "subregionSize must be nonzero"
  else
    yieldSubBoxes bbox sw sh
      ((pyRangeStep bbox.h.toNat sh.toNat).flatMap
        (fun r => (pyRangeStep bbox.w.toNat sw.toNat).map (fun c => (r, c))))

theorem yieldSubBoxes_ok (bbox : Box2I) (sw sh : ℤ) :
    ∀ (pairs : List (ℕ × ℕ)) (l : List Box2I),
      yieldSubBoxes bbox sw sh pairs = .ok l →
      ∀ b ∈ l, b.isEmptyB = false ∧ ∀ p, Box2I.mem p b → Box2I.mem p bbox := by
  intro pairs
  induction pairs with
  | nil =>
    intro l hl
    simp only [yieldSubBoxes] at hl
    cases hl
    intro b hb
    cases hb
  | cons rc rest ih =>
    intro l hl
    unfold yieldSubBoxes at hl
    by_cases hempty :
        (Box2I.clip ⟨bbox.x0 + rc.2, bbox.y0 + rc.1, sw, sh⟩ bbox).isEmptyB
    · simp [hempty] at hl
    · simp only [hempty, if_false, Bool.false_eq_true] at hl
      rcases hrest : yieldSubBoxes bbox sw sh rest with e | l2
      · rw [hrest] at hl; cases hl
      · rw [hrest] at hl
        cases hl
        intro b hb
        rcases List.mem_cons.mp hb with hb1 | hb2
        · subst hb1
          refine ⟨by simpa using hempty, fun p hp => ?_⟩
          exact ((Box2I.mem_clip _ _ p).mp hp).2
        · exact ih l2 hrest b hb2

/-- C8: `_subBBoxIter` raises on an empty (zero-area) bounding box before
yielding anything; for a non-empty bounding box strictly smaller than the
(positive) tile size in both dimensions it yields exactly one sub-box,
namely the clipped input box itself, which is non-empty; and in general
every yielded sub-box is non-empty and contained in the input box. -/
theorem subBBoxIter_boundary (bbox : Box2I) (sw sh : ℤ) :
    (bbox.isEmptyB = true → subBBoxList bbox sw sh = .error "bbox is empty") ∧
    (bbox.isEmptyB = false → 1 ≤ sw → 1 ≤ sh → bbox.w < sw → bbox.h < sh →
      subBBoxList bbox sw sh = .ok [bbox]) ∧
    (∀ l, subBBoxList bbox sw sh = .ok l →
      ∀ b ∈ l, b.isEmptyB = false ∧ ∀ p, Box2I.mem p b → Box2I.mem p bbox) := by
  refine ⟨?_, ?_, ?_⟩
  · intro hempty
    unfold subBBoxList
    simp [hempty]
  · intro hne hsw hsh hw hh
    have hrange : ∀ d s : ℤ, 0 < d → d < s → pyRangeStep d.toNat s.toNat = [0] := by
      intro d s hd hds
      unfold pyRangeStep
      have hdiv : (d.toNat + s.toNat - 1) / s.toNat = 1 :=
        Nat.div_eq_of_lt_le (by omega) (by omega)
      rw [hdiv]
      simp [List.range_succ]
    obtain ⟨x0, y0, w, h⟩ := bbox
    dsimp only at hw hh
    have hwh : 0 < w ∧ 0 < h := by
      simp only [Box2I.isEmptyB, Bool.or_eq_false_iff, decide_eq_false_iff_not,
        not_le] at hne
      exact hne
    unfold subBBoxList
    rw [if_neg (by simp [hne]), if_neg (by omega)]
    dsimp only
    rw [hrange _ _ hwh.2 hh, hrange _ _ hwh.1 hw]
    simp only [List.flatMap_cons, List.map_cons, List.map_nil, List.flatMap_nil,
      List.append_nil]
    unfold yieldSubBoxes
    dsimp only
    have hsub : Box2I.clip ⟨x0 + ((0 : ℕ) : ℤ), y0 + ((0 : ℕ) : ℤ), sw, sh⟩
        ⟨x0, y0, w, h⟩ = ⟨x0, y0, w, h⟩ := by
      unfold Box2I.clip
      dsimp only
      simp only [Box2I.mk.injEq, Nat.cast_zero, add_zero]
      refine ⟨by omega, by omega, by omega, by omega⟩
    rw [hsub]
    rw [if_neg (by simp [hne])]
    rfl
  · intro l hl
    unfold subBBoxList at hl
    by_cases h1 : bbox.isEmptyB
    · simp [h1] at hl
    · by_cases h2 : sw < 1 ∨ sh < 1
      · simp [h1, h2] at hl
      · simp only [h1, h2, Bool.false_eq_true, if_false] at hl
        exact yieldSubBoxes_ok bbox sw sh _ l hl

/-- Witness for C8 at concrete inputs: a 3x2 box with 10x10 tiles yields
exactly itself, and the empty box is rejected. -/
theorem subBBoxIter_boundary_witness :
    subBBoxList ⟨0, 0, 3, 2⟩ 10 10 = .ok [⟨0, 0, 3, 2⟩] ∧
    subBBoxList ⟨5, 5, 0, 0⟩ 10 10 = .error "bbox is empty" := by
  constructor
  · exact (subBBoxIter_boundary ⟨0, 0, 3, 2⟩ 10 10).2.1 (by decide) (by decide)
      (by decide) (by decide) (by decide)
  · exact (subBBoxIter_boundary ⟨5, 5, 0, 0⟩ 10 10).1 (by decide)

/-!
## C2: Compare-Warp artifact filtering

Embeds `CompareWarpAssembleCoaddTask.filterArtifacts` (assembleCoadd.py
lines 1805-1849).  A candidate region (SpanSet) is embedded as the list
of its pixels, each carrying its epoch-count (`epochCountImage`) and
n-image (`nImage`) values; an exclusion footprint as the list of its
pixel coordinates.  `footprintsToExclude` is the optional parameter: it
is `some` when `doPreserveContainedBySource` is enabled and template
footprints were detected (the call in `findArtifacts`), `none` otherwise.
Python `int()` truncates toward zero, embedded as `pyInt`.
-/

/-- The Compare-Warp thresholds used by `filterArtifacts`. -/
structure CompareWarpConfig where
  maxNumEpochs : ℤ
  maxFractionEpochsLow : ℚ
  maxFractionEpochsHigh : ℚ
  spatialThreshold : ℚ
deriving DecidableEq, Repr

/-- A pixel of a candidate region: coordinates, its `epochCountImage`
value (`outlierN`) and its `nImage` value (`totalN`). -/
structure CandidatePixel where
  x : ℤ
  y : ℤ
  outlierN : ℕ
  totalN : ℕ
deriving DecidableEq, Repr

/-- Python `int()` on a rational: truncation toward zero. -/
def pyInt (q : ℚ) : ℤ := if 0 ≤ q then ⌊q⌋ else ⌈q⌉

/-- `numpy.mean(totalN)`: mean of the n-image under the region. -/
def spanMeanTotalN (s : List CandidatePixel) : ℚ :=
  ((s.map (fun p => (p.totalN : ℚ))).sum) / s.length

/-- The broken-linear effective threshold before the `int()` truncation:
`min(maxFractionEpochsLow*N, maxNumEpochs + maxFractionEpochsHigh*N)`
with `N` the local mean of the n-image. -/
def effMaxNumEpochsRat (cfg : CompareWarpConfig) (s : List CandidatePixel) : ℚ :=
  min (cfg.maxFractionEpochsLow * spanMeanTotalN s)
    ((cfg.maxNumEpochs : ℚ) + cfg.maxFractionEpochsHigh * spanMeanTotalN s)

/-- `effectiveMaxNumEpochs = int(min(effLowN, effHighN))`. -/
def effectiveMaxNumEpochs (cfg : CompareWarpConfig) (s : List CandidatePixel) : ℤ :=
  pyInt (effMaxNumEpochsRat cfg s)

/-- The temporal-spatial test of `filterArtifacts`: the fraction of the
region's pixels whose epoch count is in `(0, effectiveMaxNumEpochs]`
exceeds `spatialThreshold`. -/
def spanExceedsThreshold (cfg : CompareWarpConfig) (s : List CandidatePixel) : Bool :=
  let nBelow := (s.filter (fun p =>
    decide (0 < p.outlierN ∧ (p.outlierN : ℤ) ≤ effectiveMaxNumEpochs cfg s))).length
  decide ((nBelow : ℚ) / s.length > cfg.spatialThreshold)

/-- `footprint.spans.contains(span)`: every pixel of the region lies in
the footprint. -/
def spanContainedIn (s : List CandidatePixel) (fp : List (ℤ × ℤ)) : Bool :=
  s.all (fun p => decide ((p.x, p.y) ∈ fp))

/-- `filterArtifacts`: keep the candidates passing the temporal-spatial
test, then (when exclusion footprints are supplied) drop any candidate
wholly contained in one of them. -/
def filterArtifacts (cfg : CompareWarpConfig) (spans : List (List CandidatePixel))
    (excl : Option (List (List (ℤ × ℤ)))) : List (List CandidatePixel) :=
  let masked := spans.filter (spanExceedsThreshold cfg)
  match excl with
  | none => masked
  | some fps => masked.filter (fun s => !(fps.any (fun fp => spanContainedIn s fp)))

/-- The claim's version of the temporal-spatial test, with the rational
(untruncated) effective threshold: the fraction of the region's pixels
whose epoch count lies in the half-open interval
`(0, min(maxFractionEpochsLow*N, maxNumEpochs + maxFractionEpochsHigh*N)]`
exceeds `spatialThreshold`. -/
def spanExceedsThresholdSpec (cfg : CompareWarpConfig) (s : List CandidatePixel) : Prop :=
  (((s.filter (fun p =>
      decide (0 < p.outlierN ∧ (p.outlierN : ℚ) ≤ effMaxNumEpochsRat cfg s))).length : ℚ)
    / s.length) > cfg.spatialThreshold

theorem nat_cast_le_pyInt_iff (n : ℕ) (hn : 0 < n) (q : ℚ) :
    ((n : ℤ) ≤ pyInt q) ↔ ((n : ℚ) ≤ q) := by
  unfold pyInt
  by_cases hq : 0 ≤ q
  · rw [if_pos hq, Int.le_floor]
    norm_cast
  · rw [if_neg hq]
    push_neg at hq
    have hn1 : (1 : ℚ) ≤ (n : ℚ) := by exact_mod_cast hn
    constructor
    · intro h
      exfalso
      have hc : (⌈q⌉ : ℤ) ≤ 0 := by
        rw [Int.ceil_le]
        push_cast
        linarith
      omega
    · intro h
      exfalso
      linarith

/-- The integer truncation in `effectiveMaxNumEpochs` does not change
which (integer) epoch counts qualify. -/
theorem spanExceedsThreshold_iff_spec (cfg : CompareWarpConfig)
    (s : List CandidatePixel) :
    spanExceedsThreshold cfg s = true ↔ spanExceedsThresholdSpec cfg s := by
  unfold spanExceedsThreshold spanExceedsThresholdSpec
  have hfilter : s.filter (fun p =>
      decide (0 < p.outlierN ∧ (p.outlierN : ℤ) ≤ effectiveMaxNumEpochs cfg s)) =
      s.filter (fun p =>
      decide (0 < p.outlierN ∧ (p.outlierN : ℚ) ≤ effMaxNumEpochsRat cfg s)) := by
    apply List.filter_congr
    intro p hp
    rcases Nat.eq_zero_or_pos p.outlierN with h0 | hpos
    · simp [h0]
    · rw [decide_eq_decide]
      unfold effectiveMaxNumEpochs
      rw [nat_cast_le_pyInt_iff p.outlierN hpos]
  rw [hfilter]
  exact decide_eq_true_iff

/-- The default Compare-Warp configuration (`maxNumEpochs=2`,
`maxFractionEpochsLow=0.4`, `maxFractionEpochsHigh=0.03`,
`spatialThreshold=0.5`). -/
def cwDefaults : CompareWarpConfig := ⟨2, 2/5, 3/100, 1/2⟩

/-- A four-pixel candidate region of an artifact present in 1 of 10
epochs: every pixel has epoch count 1 and n-image value 10. -/
def spanOneOfTen : List CandidatePixel :=
  [⟨0, 0, 1, 10⟩, ⟨1, 0, 1, 10⟩, ⟨0, 1, 1, 10⟩, ⟨1, 1, 1, 10⟩]

/-- The same region for an artifact present in 6 of 10 epochs. -/
def spanSixOfTen : List CandidatePixel :=
  [⟨0, 0, 6, 10⟩, ⟨1, 0, 6, 10⟩, ⟨0, 1, 6, 10⟩, ⟨1, 1, 6, 10⟩]

/-- A template footprint covering all four pixels of `spanOneOfTen`. -/
def cexFootprint : List (ℤ × ℤ) := [(0, 0), (1, 0), (0, 1), (1, 1)]

/-- C2 counterexample: a candidate region whose fraction of pixels with
epoch count in `(0, effectiveMaxNumEpochs]` exceeds `spatialThreshold`
(so the claim says it is classified as an artifact and masked), but which
is wholly contained in a footprint detected on the template coadd:
`filterArtifacts` removes it and it is not masked. -/
theorem spanMeanTotalN_oneOfTen : spanMeanTotalN spanOneOfTen = 10 := by
  unfold spanMeanTotalN spanOneOfTen
  norm_num

theorem effMax_oneOfTen : effectiveMaxNumEpochs cwDefaults spanOneOfTen = 2 := by
  have heffr : effMaxNumEpochsRat cwDefaults spanOneOfTen = 23 / 10 := by
    unfold effMaxNumEpochsRat cwDefaults
    rw [spanMeanTotalN_oneOfTen]
    norm_num [min_def]
  unfold effectiveMaxNumEpochs pyInt
  rw [heffr, if_pos (by norm_num)]
  rw [Int.floor_eq_iff]
  constructor <;> norm_num

theorem spanExceedsThreshold_oneOfTen :
    spanExceedsThreshold cwDefaults spanOneOfTen = true := by
  unfold spanExceedsThreshold
  simp only [effMax_oneOfTen]
  norm_num [spanOneOfTen, List.filter, cwDefaults]

theorem filterArtifacts_rescue_cex :
    spanExceedsThreshold cwDefaults spanOneOfTen = true ∧
    filterArtifacts cwDefaults [spanOneOfTen] (some [cexFootprint]) = [] := by
  refine ⟨spanExceedsThreshold_oneOfTen, ?_⟩
  unfold filterArtifacts
  simp [spanExceedsThreshold_oneOfTen, spanContainedIn, spanOneOfTen, cexFootprint]

theorem spanExceedsThreshold_sixOfTen :
    spanExceedsThreshold cwDefaults spanSixOfTen = false := by
  have hmean : spanMeanTotalN spanSixOfTen = 10 := by
    unfold spanMeanTotalN spanSixOfTen
    norm_num
  have heff : effectiveMaxNumEpochs cwDefaults spanSixOfTen = 2 := by
    have heffr : effMaxNumEpochsRat cwDefaults spanSixOfTen = 23 / 10 := by
      unfold effMaxNumEpochsRat cwDefaults
      rw [hmean]
      norm_num [min_def]
    unfold effectiveMaxNumEpochs pyInt
    rw [heffr, if_pos (by norm_num)]
    rw [Int.floor_eq_iff]
    constructor <;> norm_num
  unfold spanExceedsThreshold
  simp only [heff]
  norm_num [spanSixOfTen, List.filter, cwDefaults]

/-- C2 (amended): a candidate region is masked by `filterArtifacts` if and
only if the fraction of its pixels whose epoch-count value lies in
`(0, effectiveMaxNumEpochs]` exceeds `spatialThreshold` (with
`effectiveMaxNumEpochs = min(maxFractionEpochsLow*N, maxNumEpochs +
maxFractionEpochsHigh*N)`, `N` the local mean of the n-image; the `int()`
truncation does not change which integer epoch counts qualify) AND, when
exclusion footprints from the template coadd are supplied
(`doPreserveContainedBySource`), the region is not wholly contained in
any of them; otherwise it is treated as persistent and not masked.  In
particular, with the default configuration (`maxNumEpochs=2`), a
candidate of an artifact present in 1 of 10 epochs is masked and one
present in 6 of 10 epochs is left unmasked. -/
theorem filterArtifacts_threshold_amended :
    (∀ (cfg : CompareWarpConfig) (spans : List (List CandidatePixel))
        (excl : Option (List (List (ℤ × ℤ)))) (s : List CandidatePixel),
      s ∈ filterArtifacts cfg spans excl ↔
        (s ∈ spans ∧ spanExceedsThresholdSpec cfg s ∧
          ∀ fps, excl = some fps → ∀ fp ∈ fps, spanContainedIn s fp = false)) ∧
    filterArtifacts cwDefaults [spanOneOfTen] none = [spanOneOfTen] ∧
    filterArtifacts cwDefaults [spanSixOfTen] none = [] := by
  refine ⟨?_, ?_, ?_⟩
  · intro cfg spans excl s
    unfold filterArtifacts
    cases excl with
    | none =>
      simp only [List.mem_filter, spanExceedsThreshold_iff_spec]
      constructor
      · rintro ⟨h1, h2⟩
        refine ⟨h1, h2, ?_⟩
        intro fps hfps
        cases hfps
      · rintro ⟨h1, h2, _⟩
        exact ⟨h1, h2⟩
    | some fps =>
      simp only [List.mem_filter, Bool.not_eq_true']
      constructor
      · rintro ⟨⟨h1, h2⟩, h3⟩
        refine ⟨h1, (spanExceedsThreshold_iff_spec cfg s).mp h2, ?_⟩
        intro fps2 hfps2 fp hfp
        cases hfps2
        by_contra hc
        rw [Bool.not_eq_false] at hc
        have hany : (fps.any fun fp2 => spanContainedIn s fp2) = true :=
          List.any_eq_true.mpr ⟨fp, hfp, hc⟩
        rw [h3] at hany
        cases hany
      · rintro ⟨h1, h2, h3⟩
        refine ⟨⟨h1, (spanExceedsThreshold_iff_spec cfg s).mpr h2⟩, ?_⟩
        rw [Bool.eq_false_iff]
        intro hany
        rw [List.any_eq_true] at hany
        rcases hany with ⟨fp, hfp, hc⟩
        have := h3 fps rfl fp hfp
        rw [this] at hc
        cases hc
  · unfold filterArtifacts
    simp [spanExceedsThreshold_oneOfTen]
  · unfold filterArtifacts
    simp [spanExceedsThreshold_sixOfTen]

/-- Witness for C2's amended theorem at a concrete input: with no
exclusion footprints supplied, the 1-of-10 candidate is masked. -/
theorem filterArtifacts_threshold_amended_witness :
    spanOneOfTen ∈ filterArtifacts cwDefaults [spanOneOfTen] none := by
  refine (filterArtifacts_threshold_amended.1 cwDefaults [spanOneOfTen] none
    spanOneOfTen).mpr ⟨by simp, ?_, by intro fps hfps; cases hfps⟩
  exact (spanExceedsThreshold_iff_spec cwDefaults spanOneOfTen).mp
    spanExceedsThreshold_oneOfTen

/-!
## C1: Safe-Clip footprint classification

Embeds `SafeClipAssembleCoaddTask.detectClip` (assembleCoadd.py lines
1239-1292) for one footprint detected on the difference of the unclipped-
and clipped-mean coadds.  Per epoch, `ignore` is the count of footprint
pixels carrying the bad-pixel mask and `overlapDet` the count carrying
`DETECTED`/`DETECTED_NEGATIVE` without the bad mask (`countMaskFromFootprint`).
The overlap list keeps, for each epoch passing the `ignore > overlapDet`
/ `totPixel <= 0.5*nPixel` / `overlapDet == 0` skip test, the fraction
`overlapDet/totPixel` with `totPixel = nPixel - ignore`, together with the
epoch's global index.
-/

/-- The Safe-Clip overlap thresholds. -/
structure SafeClipConfig where
  minClipFootOverlap : ℚ
  minClipFootOverlapSingle : ℚ
  minClipFootOverlapDouble : ℚ
  maxClipFootOverlapDouble : ℚ
deriving DecidableEq, Repr

/-- Per-epoch footprint overlap counts. -/
structure EpochFootprintStats where
  ignore : ℕ
  overlapDet : ℕ
deriving DecidableEq, Repr

/-- The overlap list built by `detectClip` for one footprint: the
fractional overlap and global epoch index of every epoch passing the skip
test. -/
def overlapEntries (nPixel : ℕ) (epochs : List EpochFootprintStats) : List (ℚ × ℕ) :=
  epochs.enum.filterMap (fun ie =>
    let totPixel : ℤ := (nPixel : ℤ) - ie.2.ignore
    if ie.2.ignore > ie.2.overlapDet ∨ (totPixel : ℚ) ≤ (1/2 : ℚ) * nPixel ∨
        ie.2.overlapDet = 0 then none
    else some ((ie.2.overlapDet : ℚ) / (totPixel : ℚ), ie.1))

/-- `numpy.where(p(overlap))[0]`: the positions of the entries satisfying
`p`. -/
def idxWhere (p : ℚ → Bool) (l : List ℚ) : List ℕ :=
  (l.enum.filter (fun x => p x.2)).map Prod.fst

/-- `numpy.max` of a list (meaningful only for a non-empty list, where
numpy would raise; every use below is guarded by non-emptiness). -/
def pyMax (l : List ℚ) : ℚ :=
  match l with
  | [] => 0
  | h :: t => t.foldl max h

/-- The classification of one footprint from its overlap list, returning
the kept positions into the overlap list (`keepIndex`; `[]` = the
footprint is not clipped).  Mirrors `detectClip`: a single overlapping
epoch is tested against `minClipFootOverlapSingle`; otherwise the
one-epoch test against `minClipFootOverlap` runs first and the two-epoch
test (exactly two entries above `minClipFootOverlapDouble`, more than
three entries in total, and the maximum of the remaining entries at most
`maxClipFootOverlapDouble`) runs second and overrides it. -/
def classifyOverlap (cfg : SafeClipConfig) (overlap : List ℚ) : List ℕ :=
  if overlap.length = 0 then []
  else if overlap.length = 1 then
    if overlap.headI > cfg.minClipFootOverlapSingle then [0] else []
  else
    let keep1 := idxWhere (fun v => decide (v > cfg.minClipFootOverlap)) overlap
    let k1 := if keep1.length = 1 then keep1 else []
    let keep2 := idxWhere (fun v => decide (v > cfg.minClipFootOverlapDouble)) overlap
    let comp := overlap.filter (fun v => decide (v ≤ cfg.minClipFootOverlapDouble))
    if keep2.length = 2 ∧ 3 < overlap.length ∧
        pyMax comp ≤ cfg.maxClipFootOverlapDouble then keep2
    else k1

/-- Classification of one footprint directly from the per-epoch counts:
build the overlap list, classify it, and translate the kept positions to
global epoch indices (`indexList[index]` in the source). -/
def detectClipFootprint (cfg : SafeClipConfig) (nPixel : ℕ)
    (epochs : List EpochFootprintStats) : List ℕ :=
  let entries := overlapEntries nPixel epochs
  let overlap := entries.map Prod.fst
  let indexList := entries.map Prod.snd
  (classifyOverlap cfg overlap).filterMap (fun k => indexList[k]?)

/-- The default Safe-Clip configuration: `minClipFootOverlap=0.6`,
`minClipFootOverlapSingle=0.5`, `minClipFootOverlapDouble=0.45`,
`maxClipFootOverlapDouble=0.15`. -/
def scDefaults : SafeClipConfig := ⟨3/5, 1/2, 9/20, 3/20⟩

/-- Five otherwise-identical epochs with a single-pixel outlier detected
in epoch 2 only (footprint area 1, `DETECTED` overlap 1 there, 0
elsewhere). -/
def fiveEpochsOne : List EpochFootprintStats :=
  [⟨0, 0⟩, ⟨0, 0⟩, ⟨0, 1⟩, ⟨0, 0⟩, ⟨0, 0⟩]

/-- The same five epochs with the outlier present in epochs 0, 1 and 2. -/
def fiveEpochsThree : List EpochFootprintStats :=
  [⟨0, 1⟩, ⟨0, 1⟩, ⟨0, 1⟩, ⟨0, 0⟩, ⟨0, 0⟩]

/-- Three overlapping epochs for a 10-pixel footprint: overlap fractions
1/2, 1/2 and 1/10. -/
def cexEpochs : List EpochFootprintStats := [⟨0, 5⟩, ⟨0, 5⟩, ⟨0, 1⟩]

/-- C1 counterexample: a footprint overlapping exactly three epochs with
fractions `[1/2, 1/2, 1/10]` -- exactly two epochs above
`minClipFootOverlapDouble = 0.45` and the only other overlapping epoch
below `maxClipFootOverlapDouble = 0.15` -- is, per the claim, clipped on
both; `detectClip` leaves it alone because its two-epoch rule additionally
requires more than three overlapping epochs (`len(overlap) > 3`). -/
theorem detectClip_double_needs_four_overlaps_cex :
    ((overlapEntries 10 cexEpochs).map Prod.fst = [1/2, 1/2, 1/10]) ∧
    ((1/2 : ℚ) > scDefaults.minClipFootOverlapDouble) ∧
    ((1/10 : ℚ) < scDefaults.maxClipFootOverlapDouble) ∧
    detectClipFootprint scDefaults 10 cexEpochs = [] := by
  have h1 : overlapEntries 10 cexEpochs = [(1/2, 0), (1/2, 1), (1/10, 2)] := by
    unfold overlapEntries cexEpochs
    norm_num [List.enum, List.enumFrom, List.filterMap]
  refine ⟨by rw [h1]; rfl, by norm_num [scDefaults], by norm_num [scDefaults], ?_⟩
  unfold detectClipFootprint
  rw [h1]
  have h2 : classifyOverlap scDefaults [1/2, 1/2, 1/10] = [] := by
    unfold classifyOverlap scDefaults idxWhere
    norm_num [List.enum, List.enumFrom, List.filter]
  simp only [List.map_cons, List.map_nil]
  rw [h2]
  rfl

/-- The amended classification, written from the corrected claim: one
overlapping epoch above `minClipFootOverlapSingle` is clipped; with
several overlapping epochs, a footprint with exactly two epochs above
`minClipFootOverlapDouble`, more than three overlapping epochs in total,
and every other overlapping epoch at or below `maxClipFootOverlapDouble`
is clipped on those two (this rule takes precedence); otherwise a
footprint with exactly one epoch above `minClipFootOverlap` is clipped on
that epoch; otherwise it is left alone. -/
def classifyOverlapSpec (cfg : SafeClipConfig) (overlap : List ℚ) : List ℕ :=
  if overlap.length = 0 then []
  else if overlap.length = 1 then
    if overlap.headI > cfg.minClipFootOverlapSingle then [0] else []
  else if (idxWhere (fun v => decide (v > cfg.minClipFootOverlapDouble)) overlap).length = 2 ∧
      3 < overlap.length ∧
      (overlap.filter (fun v => decide (v ≤ cfg.minClipFootOverlapDouble))).all
        (fun v => decide (v ≤ cfg.maxClipFootOverlapDouble)) = true then
    idxWhere (fun v => decide (v > cfg.minClipFootOverlapDouble)) overlap
  else if (idxWhere (fun v => decide (v > cfg.minClipFootOverlap)) overlap).length = 1 then
    idxWhere (fun v => decide (v > cfg.minClipFootOverlap)) overlap
  else []

theorem foldl_max_le_iff (t : ℚ) :
    ∀ (l : List ℚ) (a : ℚ), l.foldl max a ≤ t ↔ a ≤ t ∧ ∀ v ∈ l, v ≤ t := by
  intro l
  induction l with
  | nil => intro a; simp
  | cons b tl ih =>
    intro a
    rw [List.foldl_cons, ih]
    constructor
    · rintro ⟨hab, h⟩
      rw [max_le_iff] at hab
      refine ⟨hab.1, fun v hv => ?_⟩
      rcases List.mem_cons.mp hv with hv1 | hv2
      · rw [hv1]; exact hab.2
      · exact h v hv2
    · rintro ⟨ha, h⟩
      refine ⟨max_le_iff.mpr ⟨ha, h b (by simp)⟩, fun v hv => h v (by simp [hv])⟩

theorem pyMax_le_iff (l : List ℚ) (hne : l ≠ []) (t : ℚ) :
    pyMax l ≤ t ↔ ∀ v ∈ l, v ≤ t := by
  cases l with
  | nil => cases hne rfl
  | cons h tl =>
    unfold pyMax
    rw [foldl_max_le_iff]
    constructor
    · rintro ⟨h1, h2⟩ v hv
      rcases List.mem_cons.mp hv with hv1 | hv2
      · rw [hv1]; exact h1
      · exact h2 v hv2
    · intro hall
      exact ⟨hall h (by simp), fun v hv => hall v (by simp [hv])⟩

theorem idxWhere_length (p : ℚ → Bool) (l : List ℚ) :
    (idxWhere p l).length = (l.filter p).length := by
  unfold idxWhere
  rw [List.length_map]
  have hgen : ∀ (n : ℕ) (l2 : List ℚ),
      ((List.enumFrom n l2).filter (fun x => p x.2)).length = (l2.filter p).length := by
    intro n l2
    induction l2 generalizing n with
    | nil => simp
    | cons a tl ih =>
      rw [List.enumFrom_cons]
      cases hp : p a <;> simp [List.filter_cons, hp, ih]
  rw [List.enum_eq_enumFrom]
  exact hgen 0 l

theorem length_filter_split (d : ℚ) (l : List ℚ) :
    (l.filter (fun v => decide (v > d))).length +
      (l.filter (fun v => decide (v ≤ d))).length = l.length := by
  induction l with
  | nil => simp
  | cons a tl ih =>
    rcases le_or_lt a d with h | h
    · rw [List.filter_cons, List.filter_cons]
      simp only [decide_eq_true_eq, not_lt.mpr h, h, decide_True, if_true, if_false,
        List.length_cons]
      omega
    · rw [List.filter_cons, List.filter_cons]
      simp only [decide_eq_true_eq, h, not_le.mpr h, decide_True, if_true, if_false,
        List.length_cons]
      omega

theorem classifyOverlap_eq_spec (cfg : SafeClipConfig) (overlap : List ℚ) :
    classifyOverlap cfg overlap = classifyOverlapSpec cfg overlap := by
  unfold classifyOverlap classifyOverlapSpec
  by_cases h0 : overlap.length = 0
  · simp [h0]
  · by_cases h1 : overlap.length = 1
    · simp [h0, h1]
    · simp only [h0, h1, if_false]
      have hcompne : (idxWhere (fun v =>
            decide (v > cfg.minClipFootOverlapDouble)) overlap).length = 2 →
          3 < overlap.length →
          overlap.filter (fun v => decide (v ≤ cfg.minClipFootOverlapDouble)) ≠ [] := by
        intro ha hb hnil
        have hA := idxWhere_length (fun v =>
          decide (v > cfg.minClipFootOverlapDouble)) overlap
        have hB := length_filter_split cfg.minClipFootOverlapDouble overlap
        rw [hnil] at hB
        simp only [List.length_nil] at hB
        omega
      by_cases hg : (idxWhere (fun v =>
          decide (v > cfg.minClipFootOverlapDouble)) overlap).length = 2 ∧
          3 < overlap.length
      · by_cases hm : pyMax (overlap.filter (fun v =>
            decide (v ≤ cfg.minClipFootOverlapDouble))) ≤ cfg.maxClipFootOverlapDouble
        · rw [if_pos ⟨hg.1, hg.2, hm⟩]
          have hall : (overlap.filter (fun v =>
              decide (v ≤ cfg.minClipFootOverlapDouble))).all
              (fun v => decide (v ≤ cfg.maxClipFootOverlapDouble)) = true := by
            rw [List.all_eq_true]
            intro v hv
            have := (pyMax_le_iff _ (hcompne hg.1 hg.2) _).mp hm v hv
            simpa using this
          rw [if_pos ⟨hg.1, hg.2, hall⟩]
        · rw [if_neg (fun hcon => hm hcon.2.2)]
          have hnall : ¬((idxWhere (fun v =>
              decide (v > cfg.minClipFootOverlapDouble)) overlap).length = 2 ∧
              3 < overlap.length ∧
              (overlap.filter (fun v => decide (v ≤ cfg.minClipFootOverlapDouble))).all
                (fun v => decide (v ≤ cfg.maxClipFootOverlapDouble)) = true) := by
            rintro ⟨ha, hb, hc⟩
            apply hm
            rw [pyMax_le_iff _ (hcompne ha hb)]
            intro v hv
            have := List.all_eq_true.mp hc v hv
            simpa using this
          rw [if_neg hnall]
      · have hng1 : ¬((idxWhere (fun v =>
            decide (v > cfg.minClipFootOverlapDouble)) overlap).length = 2 ∧
            3 < overlap.length ∧
            pyMax (overlap.filter (fun v =>
              decide (v ≤ cfg.minClipFootOverlapDouble))) ≤
              cfg.maxClipFootOverlapDouble) :=
          fun hcon => hg ⟨hcon.1, hcon.2.1⟩
        have hng2 : ¬((idxWhere (fun v =>
            decide (v > cfg.minClipFootOverlapDouble)) overlap).length = 2 ∧
            3 < overlap.length ∧
            (overlap.filter (fun v => decide (v ≤ cfg.minClipFootOverlapDouble))).all
              (fun v => decide (v ≤ cfg.maxClipFootOverlapDouble)) = true) :=
          fun hcon => hg ⟨hcon.1, hcon.2.1⟩
        rw [if_neg hng1, if_neg hng2]

/-- C1 (amended): `detectClip` classifies each footprint as follows -- a
footprint whose overlap list has exactly one entry is clipped on that
epoch exactly when its fraction exceeds `minClipFootOverlapSingle`; with
more overlapping epochs, when exactly two entries exceed
`minClipFootOverlapDouble`, more than three epochs overlap in total, and
every other overlapping epoch is at or below `maxClipFootOverlapDouble`,
it is clipped on those two (this rule takes precedence); otherwise it is
clipped exactly when exactly one entry exceeds `minClipFootOverlap`;
otherwise it is left alone.  In particular, a single-pixel outlier
present in exactly one of five otherwise-identical epochs is clipped on
that epoch, and the same outlier present in three of five epochs is not
clipped. -/
theorem detectClip_classification_amended :
    (∀ (cfg : SafeClipConfig) (overlap : List ℚ),
      classifyOverlap cfg overlap = classifyOverlapSpec cfg overlap) ∧
    detectClipFootprint scDefaults 1 fiveEpochsOne = [2] ∧
    detectClipFootprint scDefaults 1 fiveEpochsThree = [] := by
  refine ⟨classifyOverlap_eq_spec, ?_, ?_⟩
  · have h1 : overlapEntries 1 fiveEpochsOne = [(1, 2)] := by
      unfold overlapEntries fiveEpochsOne
      norm_num [List.enum, List.enumFrom, List.filterMap]
    unfold detectClipFootprint
    rw [h1]
    have h2 : classifyOverlap scDefaults [1] = [0] := by
      unfold classifyOverlap scDefaults
      norm_num
    simp only [List.map_cons, List.map_nil]
    rw [h2]
    decide
  · have h1 : overlapEntries 1 fiveEpochsThree = [(1, 0), (1, 1), (1, 2)] := by
      unfold overlapEntries fiveEpochsThree
      norm_num [List.enum, List.enumFrom, List.filterMap]
    unfold detectClipFootprint
    rw [h1]
    have h2 : classifyOverlap scDefaults [1, 1, 1] = [] := by
      unfold classifyOverlap scDefaults idxWhere
      norm_num [List.enum, List.enumFrom, List.filter]
    simp only [List.map_cons, List.map_nil]
    rw [h2]
    rfl

/-!
## C3: the DCR model clamp

Embeds `DcrAssembleCoaddTask.clampModel` (dcrAssembleCoadd.py lines
397-433) at one pixel.  `newModel = residual; newModel += oldModel` adds
value and variance and ORs the masks; pixels where the new value AND the
new variance are both non-finite (`~(isfinite(newImage) |
isfinite(newVariance))`) have the mask overwritten with `NO_DATA` and
value and variance zeroed; `highPixels`/`lowPixels` require the magnitude
condition on the value AND on the variance (the two boolean arrays are
multiplied); the low test runs on the array as left by the preceding
steps.  Division by `modelClampFactor` is embedded as scaling by its
inverse (the factor is a nonzero finite configuration value).
-/

/-- One pixel of a masked image: value, variance and mask bits. -/
structure ModelPixel where
  image : PFloat
  variance : PFloat
  mask : ℕ
deriving DecidableEq, Repr

/-- `clampModel` at one pixel: `res` the stacked residual, `old` the
previous model, `c = modelClampFactor`, `noData` the NO_DATA bit. -/
def clampPixel (c : ℚ) (noData : ℕ) (res old : ModelPixel) : ModelPixel :=
  let newImage0 := res.image.add old.image
  let newVar0 := res.variance.add old.variance
  let nonFinite := !newImage0.isFinite && !newVar0.isFinite
  let mask1 := if nonFinite then noData else res.mask ||| old.mask
  let img1 := if nonFinite then .fin 0 else newImage0
  let var1 := if nonFinite then .fin 0 else newVar0
  let high := PFloat.gt img1.abs (old.image.scale c).abs &&
    PFloat.gt var1.abs (old.variance.scale c).abs
  let img2 := if high then old.image.scale c else img1
  let var2 := if high then old.variance.scale c else var1
  let low := PFloat.lt img2.abs (old.image.scale c⁻¹).abs &&
    PFloat.lt var2.abs (old.variance.scale c⁻¹).abs
  let img3 := if low then old.image.scale c⁻¹ else img2
  let var3 := if low then old.variance.scale c⁻¹ else var2
  ⟨img3, var3, mask1⟩

/-- C3 counterexample: with `modelClampFactor = 2` and `old = (1, 1)`, a
residual of `(5, 0)` gives a new value `6` whose magnitude exceeds
`modelClampFactor` times the old value (`2`) yet is NOT clipped (the
variance did not also exceed its bound); and a residual whose value is
NaN but whose variance is finite yields a non-finite result that is
neither marked `NO_DATA` nor zeroed. -/
theorem clampModel_coupled_clamp_cex :
    (clampPixel 2 256 ⟨.fin 5, .fin 0, 0⟩ ⟨.fin 1, .fin 1, 0⟩).image = .fin 6 ∧
    ¬(|(6 : ℚ)| ≤ 2 * |(1 : ℚ)|) ∧
    (clampPixel 2 256 ⟨.nan, .fin 1, 0⟩ ⟨.fin 1, .fin 1, 0⟩).image = .nan ∧
    (clampPixel 2 256 ⟨.nan, .fin 1, 0⟩ ⟨.fin 1, .fin 1, 0⟩).mask = 0 := by
  refine ⟨?_, by norm_num, ?_, ?_⟩ <;>
    norm_num [clampPixel, PFloat.add, PFloat.isFinite, PFloat.abs, PFloat.scale,
      PFloat.gt, PFloat.lt]
  intro h
  rw [abs_of_pos (by norm_num : (0 : ℚ) < 1 / 2)] at h
  norm_num at h

theorem clampPixel_mask_finite (c ri rv oi ov : ℚ) (rm om nd : ℕ) :
    (clampPixel c nd ⟨.fin ri, .fin rv, rm⟩ ⟨.fin oi, .fin ov, om⟩).mask = rm ||| om := by
  simp only [clampPixel, PFloat.add, PFloat.isFinite, Bool.not_true, Bool.false_and,
    Bool.false_eq_true, if_false]

theorem clampPixel_high (c ri rv oi ov : ℚ) (rm om nd : ℕ) (hc : 1 ≤ c)
    (hH : |c * oi| < |ri + oi| ∧ |c * ov| < |rv + ov|) :
    (clampPixel c nd ⟨.fin ri, .fin rv, rm⟩ ⟨.fin oi, .fin ov, om⟩).image = .fin (c * oi) ∧
    (clampPixel c nd ⟨.fin ri, .fin rv, rm⟩ ⟨.fin oi, .fin ov, om⟩).variance = .fin (c * ov) := by
  have hc0 : (0 : ℚ) < c := lt_of_lt_of_le zero_lt_one hc
  have hnl1 : ¬(|c * oi| < |c⁻¹ * oi|) := by
    rw [not_lt, abs_mul, abs_mul]
    apply mul_le_mul_of_nonneg_right _ (abs_nonneg oi)
    rw [abs_of_pos hc0, abs_of_pos (inv_pos.mpr hc0)]
    exact le_trans (inv_le_one_of_one_le₀ hc) hc
  simp only [clampPixel, PFloat.add, PFloat.isFinite, PFloat.abs, PFloat.scale,
    PFloat.gt, PFloat.lt, Bool.not_true, Bool.false_and, Bool.false_eq_true, if_false,
    Bool.and_eq_true, decide_eq_true_eq]
  rw [if_pos hH, if_pos hH]
  simp only [PFloat.abs, PFloat.lt, Bool.and_eq_true, decide_eq_true_eq]
  rw [if_neg (fun hcon => hnl1 hcon.1), if_neg (fun hcon => hnl1 hcon.1)]
  exact ⟨rfl, rfl⟩

theorem clampPixel_low (c ri rv oi ov : ℚ) (rm om nd : ℕ)
    (hnH : ¬(|c * oi| < |ri + oi| ∧ |c * ov| < |rv + ov|))
    (hL : |ri + oi| < |c⁻¹ * oi| ∧ |rv + ov| < |c⁻¹ * ov|) :
    (clampPixel c nd ⟨.fin ri, .fin rv, rm⟩ ⟨.fin oi, .fin ov, om⟩).image = .fin (c⁻¹ * oi) ∧
    (clampPixel c nd ⟨.fin ri, .fin rv, rm⟩ ⟨.fin oi, .fin ov, om⟩).variance = .fin (c⁻¹ * ov) := by
  simp only [clampPixel, PFloat.add, PFloat.isFinite, PFloat.abs, PFloat.scale,
    PFloat.gt, PFloat.lt, Bool.not_true, Bool.false_and, Bool.false_eq_true, if_false,
    Bool.and_eq_true, decide_eq_true_eq]
  rw [if_neg hnH, if_neg hnH]
  simp only [PFloat.abs, PFloat.lt, Bool.and_eq_true, decide_eq_true_eq]
  rw [if_pos hL, if_pos hL]
  exact ⟨rfl, rfl⟩

theorem clampPixel_none (c ri rv oi ov : ℚ) (rm om nd : ℕ)
    (hnH : ¬(|c * oi| < |ri + oi| ∧ |c * ov| < |rv + ov|))
    (hnL : ¬(|ri + oi| < |c⁻¹ * oi| ∧ |rv + ov| < |c⁻¹ * ov|)) :
    (clampPixel c nd ⟨.fin ri, .fin rv, rm⟩ ⟨.fin oi, .fin ov, om⟩).image = .fin (ri + oi) ∧
    (clampPixel c nd ⟨.fin ri, .fin rv, rm⟩ ⟨.fin oi, .fin ov, om⟩).variance = .fin (rv + ov) := by
  simp only [clampPixel, PFloat.add, PFloat.isFinite, PFloat.abs, PFloat.scale,
    PFloat.gt, PFloat.lt, Bool.not_true, Bool.false_and, Bool.false_eq_true, if_false,
    Bool.and_eq_true, decide_eq_true_eq]
  rw [if_neg hnH, if_neg hnH]
  simp only [PFloat.abs, PFloat.lt, Bool.and_eq_true, decide_eq_true_eq]
  rw [if_neg hnL, if_neg hnL]
  exact ⟨rfl, rfl⟩

theorem clampPixel_nanboth (c oi ov : ℚ) (rm om nd : ℕ) (hc : 1 ≤ c) :
    (clampPixel c nd ⟨.nan, .nan, rm⟩ ⟨.fin oi, .fin ov, om⟩).mask = nd ∧
    (oi ≠ 0 → ov ≠ 0 →
      (clampPixel c nd ⟨.nan, .nan, rm⟩ ⟨.fin oi, .fin ov, om⟩).image = .fin (c⁻¹ * oi) ∧
      (clampPixel c nd ⟨.nan, .nan, rm⟩ ⟨.fin oi, .fin ov, om⟩).variance = .fin (c⁻¹ * ov)) ∧
    (oi = 0 ∨ ov = 0 →
      (clampPixel c nd ⟨.nan, .nan, rm⟩ ⟨.fin oi, .fin ov, om⟩).image = .fin 0 ∧
      (clampPixel c nd ⟨.nan, .nan, rm⟩ ⟨.fin oi, .fin ov, om⟩).variance = .fin 0) := by
  have hc0 : (0 : ℚ) < c := lt_of_lt_of_le zero_lt_one hc
  have hcinv : c⁻¹ ≠ 0 := ne_of_gt (inv_pos.mpr hc0)
  have hhigh : ¬(|c * oi| < |(0 : ℚ)| ∧ |c * ov| < |(0 : ℚ)|) := by
    rintro ⟨h1, h2⟩
    rw [abs_zero] at h1
    exact absurd h1 (not_lt.mpr (abs_nonneg _))
  simp only [clampPixel, PFloat.add, PFloat.isFinite, PFloat.abs, PFloat.scale,
    PFloat.gt, PFloat.lt, Bool.not_false, Bool.and_self, if_true,
    Bool.and_eq_true, decide_eq_true_eq]
  rw [if_neg hhigh, if_neg hhigh]
  simp only [PFloat.abs, PFloat.lt, Bool.and_eq_true, decide_eq_true_eq]
  refine ⟨trivial, ?_, ?_⟩
  · intro hoi hov
    have hlow : |(0 : ℚ)| < |c⁻¹ * oi| ∧ |(0 : ℚ)| < |c⁻¹ * ov| := by
      rw [abs_zero]
      constructor <;> rw [abs_pos] <;> exact mul_ne_zero hcinv (by assumption)
    rw [if_pos hlow, if_pos hlow]
    exact ⟨rfl, rfl⟩
  · intro hzero
    have hlow : ¬(|(0 : ℚ)| < |c⁻¹ * oi| ∧ |(0 : ℚ)| < |c⁻¹ * ov|) := by
      rintro ⟨h1, h2⟩
      rw [abs_zero, abs_pos] at h1 h2
      rcases hzero with hz | hz
      · exact h1 (by rw [hz, mul_zero])
      · exact h2 (by rw [hz, mul_zero])
    rw [if_neg hlow, if_neg hlow]
    exact ⟨rfl, rfl⟩

/-- C3 (amended): the clamp step sets new value = old + correction per
pixel, but clips only when BOTH the value and the variance trigger the
same bound: if both new value and new variance exceed `modelClampFactor`
times their old magnitudes, the pixel is set to `modelClampFactor` times
the old model (so its magnitude then equals the claimed bound); if (not
so, and) both fall below the old magnitudes divided by
`modelClampFactor`, it is set to old divided by `modelClampFactor`;
otherwise value and variance are left at old + correction, which may
exceed the claimed magnitude bounds.  A pixel is marked `NO_DATA` only
when BOTH its new value and new variance are non-finite; it is then
zeroed, but when both old value and old variance are nonzero the low clip
immediately raises it to old divided by `modelClampFactor`, so it ends
zeroed only when the old value or old variance was zero. -/
theorem clampModel_amended :
    (∀ (c ri rv oi ov : ℚ) (rm om nd : ℕ), 1 ≤ c →
      ((clampPixel c nd ⟨.fin ri, .fin rv, rm⟩ ⟨.fin oi, .fin ov, om⟩).mask = rm ||| om) ∧
      ((|c * oi| < |ri + oi| ∧ |c * ov| < |rv + ov|) →
        (clampPixel c nd ⟨.fin ri, .fin rv, rm⟩ ⟨.fin oi, .fin ov, om⟩).image =
          .fin (c * oi) ∧
        (clampPixel c nd ⟨.fin ri, .fin rv, rm⟩ ⟨.fin oi, .fin ov, om⟩).variance =
          .fin (c * ov)) ∧
      (¬(|c * oi| < |ri + oi| ∧ |c * ov| < |rv + ov|) →
        (|ri + oi| < |c⁻¹ * oi| ∧ |rv + ov| < |c⁻¹ * ov|) →
        (clampPixel c nd ⟨.fin ri, .fin rv, rm⟩ ⟨.fin oi, .fin ov, om⟩).image =
          .fin (c⁻¹ * oi) ∧
        (clampPixel c nd ⟨.fin ri, .fin rv, rm⟩ ⟨.fin oi, .fin ov, om⟩).variance =
          .fin (c⁻¹ * ov)) ∧
      (¬(|c * oi| < |ri + oi| ∧ |c * ov| < |rv + ov|) →
        ¬(|ri + oi| < |c⁻¹ * oi| ∧ |rv + ov| < |c⁻¹ * ov|) →
        (clampPixel c nd ⟨.fin ri, .fin rv, rm⟩ ⟨.fin oi, .fin ov, om⟩).image =
          .fin (ri + oi) ∧
        (clampPixel c nd ⟨.fin ri, .fin rv, rm⟩ ⟨.fin oi, .fin ov, om⟩).variance =
          .fin (rv + ov))) ∧
    (∀ (c oi ov : ℚ) (rm om nd : ℕ), 1 ≤ c →
      (clampPixel c nd ⟨.nan, .nan, rm⟩ ⟨.fin oi, .fin ov, om⟩).mask = nd ∧
      (oi ≠ 0 → ov ≠ 0 →
        (clampPixel c nd ⟨.nan, .nan, rm⟩ ⟨.fin oi, .fin ov, om⟩).image =
          .fin (c⁻¹ * oi) ∧
        (clampPixel c nd ⟨.nan, .nan, rm⟩ ⟨.fin oi, .fin ov, om⟩).variance =
          .fin (c⁻¹ * ov)) ∧
      (oi = 0 ∨ ov = 0 →
        (clampPixel c nd ⟨.nan, .nan, rm⟩ ⟨.fin oi, .fin ov, om⟩).image = .fin 0 ∧
        (clampPixel c nd ⟨.nan, .nan, rm⟩ ⟨.fin oi, .fin ov, om⟩).variance = .fin 0)) := by
  constructor
  · intro c ri rv oi ov rm om nd hc
    exact ⟨clampPixel_mask_finite c ri rv oi ov rm om nd,
      clampPixel_high c ri rv oi ov rm om nd hc,
      clampPixel_low c ri rv oi ov rm om nd,
      clampPixel_none c ri rv oi ov rm om nd⟩
  · intro c oi ov rm om nd hc
    exact clampPixel_nanboth c oi ov rm om nd hc

/-- Witness for C3's amended theorem at a concrete pixel: residual
`(5, 5)`, old model `(1, 1)`, `modelClampFactor = 2`: both value and
variance exceed the high bound, so the pixel is clipped to `(2, 2)` and
the masks are ORed. -/
theorem clampModel_amended_witness :
    (clampPixel 2 256 ⟨.fin 5, .fin 5, 3⟩ ⟨.fin 1, .fin 1, 4⟩).image = .fin (2 * 1) ∧
    (clampPixel 2 256 ⟨.fin 5, .fin 5, 3⟩ ⟨.fin 1, .fin 1, 4⟩).mask = 3 ||| 4 := by
  have habs : |(2 : ℚ) * 1| < |(5 : ℚ) + 1| ∧ |(2 : ℚ) * 1| < |(5 : ℚ) + 1| := by
    rw [show ((2 : ℚ) * 1) = 2 by norm_num, show ((5 : ℚ) + 1) = 6 by norm_num,
      abs_of_pos (by norm_num : (0 : ℚ) < 2), abs_of_pos (by norm_num : (0 : ℚ) < 6)]
    norm_num
  have h := clampModel_amended.1 2 5 5 1 1 3 4 256 (by norm_num)
  exact ⟨(h.2.1 habs).1, h.1⟩

/-- Witness for C1's amended theorem at a concrete overlap list. -/
theorem detectClip_classification_amended_witness :
    classifyOverlap scDefaults [1/2, 1/2, 1/10] =
      classifyOverlapSpec scDefaults [1/2, 1/2, 1/10] :=
  detectClip_classification_amended.1 scDefaults [1/2, 1/2, 1/10]

/-- Witness for C4 at a concrete pixel: three sub-band values keep their
sum through the regularization. -/
theorem regularizeModel_flux_conserved_witness :
    (regularizeModelPixel 2 0 [1, 7, 1]).sum = ([1, 7, 1] : List ℚ).sum :=
  regularizeModel_flux_conserved 2 0 [1, 7, 1]

/-- Witness for C5 at a concrete configuration (every iteration raising):
the loop still terminates within the bound. -/
theorem dcrIterLoop_terminates_witness :
    (dcrIterLoop ⟨1/1000, 3, 8, true⟩ (fun _ => none) 0 1 1).modelIter ≤ 8 + 1 :=
  (dcrIterLoop_terminates ⟨1/1000, 3, 8, true⟩ (fun _ => none) 1).1

/-- Witness for C6 at concrete mask planes. -/
theorem assembleSubregion_maskMap_rules_witness :
    (mkMaskMap 8 1 2 4 16 32).length = 3 :=
  (assembleSubregion_maskMap_rules 8 1 2 4 16 32).1

end PipeTasks
